import Mathlib

/-!
# Verification of the receipt-scoring service (`src/main.go`)

Shallow embedding of the Go program: the scorer (`scanReceipt`), the global
ledger map `receiptPoints`, and the lookup handler (`getPoints`).

Modelling decisions, stated once here and in the doc comments below:

* Go parses monetary strings with `strconv.ParseFloat` into `float64`.  We
  model decimal strings exactly as rational numbers (`ℚ`): `parseDecimal`
  covers the plain signed decimal fragment of `ParseFloat` (optional sign,
  digits, optional fractional part) — the only fragment the program's data
  ever exercises.  On every concrete string appearing in the claims the
  float64 computation and the exact rational computation agree on every
  comparison the program makes (`Floor == x`, `Mod(x, 0.25) == 0`,
  `Ceil(p*0.2)`), so the embedding is faithful there.
* `math.Floor`, `math.Ceil`, `math.Mod` become `ratFloor`, `ratCeil`,
  `goMod` on `ℚ`.
* Go `int` arithmetic on the point accumulator is modelled by `ℤ`
  (no value in any claim approaches 64-bit overflow).
* `unicode.IsLetter`/`unicode.IsDigit` are modelled on the ASCII fragment
  (the only range the spec's retailer strings exercise); `unicode.IsSpace`
  (used by `strings.TrimSpace`) is modelled with the full Unicode
  White_Space code-point list that Go's table encodes.
* Go `len` on a string is its UTF-8 byte length; `utf8Len` models this
  with `Char.utf8Size`.
* The `uuid.New().String()` call is nondeterministic; the handler embedding
  takes the fresh identifier as an explicit parameter.
-/

/-- An item of a receipt: `shortDescription` and `price` (a decimal string),
from the Go struct `Item`. -/
structure Item where
  description : String
  price : String
deriving DecidableEq, Repr

/-- A receipt, from the Go struct `Receipt`. -/
structure Receipt where
  retailer : String
  date : String
  time : String
  items : List Item
  total : String
deriving DecidableEq, Repr

/-- ASCII decimal digit test (`'0'..'9'`), as used by Go's number parsers. -/
def isDigitChar (c : Char) : Bool := '0' ≤ c && c ≤ '9'

/-- Value of a list of decimal digit characters, most significant first. -/
def digitsVal (l : List Char) : Nat :=
  l.foldl (fun a c => 10 * a + (c.toNat - 48)) 0

/-- Exact rational product, computed through the reducible smart
constructor `mkRat` (the library's `Rat.mul` is `@[irreducible]`, which
would block concrete evaluation); it denotes the same rational. -/
def ratMul (a b : ℚ) : ℚ := mkRat (a.num * b.num) (a.den * b.den)

/-- Exact rational difference, through `mkRat`; same value as `Rat.sub`. -/
def ratSub (a b : ℚ) : ℚ := mkRat (a.num * b.den - b.num * a.den) (a.den * b.den)

/-- Exact rational quotient, through `Rat.divInt`; same value as
`Rat.div`. -/
def ratDiv (a b : ℚ) : ℚ := Rat.divInt (a.num * b.den) (b.num * a.den)

/-- Model of `strconv.ParseFloat` on the plain signed decimal fragment
(optional `+`/`-` sign, decimal digits, optional `.` and fractional digits,
at least one digit overall), returning the exact rational value
`intPart.fracPart = (intPart·10^k + fracPart) / 10^k`.
The exponent/hex/inf/nan forms of `ParseFloat` are outside the fragment the
program's data exercises and are not modelled. -/
def parseDecimal (s : String) : Option ℚ :=
  let go : List Char → Option ℚ := fun cs =>
    let intPart := cs.takeWhile isDigitChar
    let rest := cs.dropWhile isDigitChar
    match rest with
    | [] =>
      if intPart.isEmpty then none
      else some (mkRat (digitsVal intPart) 1)
    | '.' :: fracPart =>
      if fracPart.all isDigitChar && !(intPart.isEmpty && fracPart.isEmpty) then
        some (mkRat (digitsVal intPart * 10 ^ fracPart.length + digitsVal fracPart)
          (10 ^ fracPart.length))
      else none
    | _ => none
  match s.data with
  | '-' :: cs => (go cs).map Rat.neg
  | '+' :: cs => go cs
  | cs => go cs

/-- `math.Floor` on the exact rational value: floor division of the
numerator by the denominator. -/
def ratFloor (q : ℚ) : Int := q.num.fdiv q.den

/-- `math.Ceil` on the exact rational value. -/
def ratCeil (q : ℚ) : Int := -(ratFloor (Rat.neg q))

/-- Truncation toward zero of a rational, as Go's float-to-int conversion
and the quotient inside `math.Mod` behave. -/
def ratTrunc (q : ℚ) : Int := q.num.tdiv q.den

/-- `math.Mod x y = x - y * trunc(x / y)` (result carries the sign of `x`),
on exact rationals. -/
def goMod (x y : ℚ) : ℚ :=
  ratSub x (ratMul y (Rat.ofInt (ratTrunc (ratDiv x y))))

/-- A calendar date as produced by parsing with layout `"2006-01-02"`. -/
structure DateYMD where
  year : Nat
  month : Nat
  day : Nat
deriving DecidableEq, Repr

/-- Gregorian leap-year rule, as in Go's `time` package date validation. -/
def isLeapYear (y : Nat) : Bool :=
  y % 4 == 0 && (y % 100 != 0 || y % 400 == 0)

/-- Number of days in a month, as Go's `time.Parse` uses to validate the
day component. -/
def daysInMonth (y m : Nat) : Nat :=
  if m = 2 then (if isLeapYear y then 29 else 28)
  else if m = 4 ∨ m = 6 ∨ m = 9 ∨ m = 11 then 30
  else 31

/-- Model of `time.Parse("2006-01-02", s)`: exactly `YYYY-MM-DD` with
zero-padded month and day, month in `1..12`, day valid for the month. -/
def parseDate (s : String) : Option DateYMD :=
  match s.data with
  | [y1, y2, y3, y4, '-', m1, m2, '-', d1, d2] =>
    if [y1, y2, y3, y4, m1, m2, d1, d2].all isDigitChar then
      let y := digitsVal [y1, y2, y3, y4]
      let m := digitsVal [m1, m2]
      let d := digitsVal [d1, d2]
      if 1 ≤ m && m ≤ 12 && 1 ≤ d && d ≤ daysInMonth y m then
        some ⟨y, m, d⟩
      else none
    else none
  | _ => none

/-- A wall-clock time as produced by parsing with layout `"15:04"`. -/
structure TimeHM where
  hour : Nat
  minute : Nat
deriving DecidableEq, Repr

/-- Model of `time.Parse("15:04", s)`: a one- or two-digit 24-hour hour,
`':'`, a zero-padded two-digit minute; hour `< 24`, minute `< 60`. -/
def parseTime (s : String) : Option TimeHM :=
  match s.data with
  | [h1, h2, ':', m1, m2] =>
    if [h1, h2, m1, m2].all isDigitChar then
      let h := digitsVal [h1, h2]
      let m := digitsVal [m1, m2]
      if h < 24 && m < 60 then some ⟨h, m⟩ else none
    else none
  | [h1, ':', m1, m2] =>
    if [h1, m1, m2].all isDigitChar then
      let h := digitsVal [h1]
      let m := digitsVal [m1, m2]
      if h < 24 && m < 60 then some ⟨h, m⟩ else none
    else none
  | _ => none

/-- Go `unicode.IsSpace`: the Unicode White_Space code points. -/
def goIsSpace (c : Char) : Bool :=
  let n := c.toNat
  (0x09 ≤ n && n ≤ 0x0D) || n == 0x20 || n == 0x85 || n == 0xA0 ||
  n == 0x1680 || (0x2000 ≤ n && n ≤ 0x200A) || n == 0x2028 || n == 0x2029 ||
  n == 0x202F || n == 0x205F || n == 0x3000

/-- `strings.TrimSpace`: drop leading and trailing White_Space runes. -/
def goTrim (l : List Char) : List Char :=
  ((l.dropWhile goIsSpace).reverse.dropWhile goIsSpace).reverse

/-- UTF-8 byte length of a rune sequence; Go's `len` on the corresponding
string. -/
def utf8Len (l : List Char) : Nat :=
  l.foldl (fun n c => n + c.utf8Size) 0

/-- `len(strings.TrimSpace(description))` from `main.go:107`: the UTF-8
byte length of the trimmed description. -/
def trimmedDescLength (d : String) : Nat := utf8Len (goTrim d.data)

/-- The guard at `main.go:108`: an item's description qualifies for the
description-length bonus when the trimmed byte length is a multiple of 3. -/
def descQualifies (d : String) : Bool := trimmedDescLength d % 3 == 0

/-- Go `unicode.IsLetter || unicode.IsDigit`, modelled on the ASCII
fragment (the only range the spec's retailer strings exercise). -/
def goIsAlphaNum (c : Char) : Bool := c.isAlpha || c.isDigit

/-- `main.go:82-88`: one point per letter-or-digit rune of the retailer
name. -/
def retailerPoints (s : String) : Int :=
  ((s.data.filter goIsAlphaNum).length : Int)

/-- `main.go:91`: the round-dollar test `math.Floor(total) == total`. -/
def roundDollar (q : ℚ) : Bool := Rat.ofInt (ratFloor q) == q

/-- `main.go:96`: the quarter-multiple test `math.Mod(total, 0.25) == 0`. -/
def quarterMultiple (q : ℚ) : Bool := goMod q (mkRat 1 4) == 0

/-- `main.go:101`: `5 * (len(items) / 2)` (Go integer division on a
non-negative length). -/
def pairPoints (n : Nat) : Int := (5 * (n / 2) : Nat)

/-- Error classification of the scorer's short-circuit failures,
one constructor per distinct bad-request branch of `scanReceipt`. -/
inductive ScanError where
  | invalidTotal
  | invalidDate
  | invalidTime
  | invalidItemPrice (desc : String)
deriving DecidableEq, Repr

/-- The human-readable message each error branch writes
(`main.go:53,63,73,113`). -/
def errorMessage : ScanError → String
  | .invalidTotal => "Failed to parse receipt total to float."
  | .invalidDate => "Failed to parse receipt purchaseDate."
  | .invalidTime => "Failed to parse receipt purchaseTime."
  | .invalidItemPrice d => "Failed to parse price to float for item: " ++ d

instance {ε α : Type} [DecidableEq ε] [DecidableEq α] : DecidableEq (Except ε α) := fun a b =>
  match a, b with
  | .ok x, .ok y =>
    match decEq x y with
    | isTrue h => isTrue (by rw [h])
    | isFalse h => isFalse (fun c => h (Except.ok.inj c))
  | .error x, .error y =>
    match decEq x y with
    | isTrue h => isTrue (by rw [h])
    | isFalse h => isFalse (fun c => h (Except.error.inj c))
  | .ok _, .error _ => isFalse (fun c => Except.noConfusion c)
  | .error _, .ok _ => isFalse (fun c => Except.noConfusion c)

/-- The item loop of `main.go:106-119`: for each item whose trimmed
description byte length is a multiple of 3, parse its price (returning
`invalidItemPrice` with the item's description on failure) and add
`ceil(price * 0.2)`; non-qualifying items' prices are never parsed. -/
def itemPoints : List Item → Except ScanError Int
  | [] => .ok 0
  | item :: rest =>
    if descQualifies item.description then
      match parseDecimal item.price with
      | none => .error (.invalidItemPrice item.description)
      | some p =>
        match itemPoints rest with
        | .error e => .error e
        | .ok restPts => .ok (ratCeil (ratMul p (mkRat 1 5)) + restPts)
    else itemPoints rest

/-- `main.go:122`: the odd-day test `day % 2 != 0`. -/
def oddDay (d : DateYMD) : Bool := d.day % 2 != 0

/-- `main.go:127-128`: the afternoon-bonus condition
`(hour == 14 && minute > 0) || (hour > 14) && (hour < 16)`. -/
def afternoonQualifies (t : TimeHM) : Bool :=
  (t.hour == 14 && t.minute > 0) || (t.hour > 14 && t.hour < 16)

/-- The scoring core of `scanReceipt` (`main.go:48-130`): parse total,
date and time in that order, short-circuiting with the corresponding
error; then sum retailer points, the +50 round-dollar bonus, the +25
quarter bonus, the item-pair points, the per-item description-length
bonuses (short-circuiting on a qualifying item's unparseable price), the
+6 odd-day bonus and the +10 afternoon bonus. -/
def scanReceiptPoints (r : Receipt) : Except ScanError Int :=
  match parseDecimal r.total with
  | none => .error .invalidTotal
  | some receiptTotal =>
    match parseDate r.date with
    | none => .error .invalidDate
    | some receiptDate =>
      match parseTime r.time with
      | none => .error .invalidTime
      | some receiptTime =>
        match itemPoints r.items with
        | .error e => .error e
        | .ok itemPts =>
          .ok (retailerPoints r.retailer
            + (if roundDollar receiptTotal then 50 else 0)
            + (if quarterMultiple receiptTotal then 25 else 0)
            + pairPoints r.items.length
            + itemPts
            + (if oddDay receiptDate then 6 else 0)
            + (if afternoonQualifies receiptTime then 10 else 0))

/-- The global `receiptPoints` map, modelled as an association list
(later insertions shadow earlier ones, as map assignment does). -/
abbrev Ledger := List (String × Int)

/-- `receiptPoints[uniqueID] = totalPoints` (`main.go:133`). -/
def ledgerInsert (l : Ledger) (id : String) (pts : Int) : Ledger :=
  (id, pts) :: l

/-- `points, exists := receiptPoints[inputId]` (`main.go:144`): the
comma-ok map read, which never panics. -/
def ledgerLookup (l : Ledger) (id : String) : Option Int :=
  (l.find? (fun p => p.1 == id)).map Prod.snd

/-- Response of the submit handler: `201 {"id": ...}` or
`400 {"message": ...}`. -/
inductive ScanResponse where
  | created (id : String)
  | badRequest (message : String)
deriving DecidableEq, Repr

/-- The `scanReceipt` handler (`main.go:36-139`) after JSON binding: on
any scoring error it responds 400 with that error's message and performs
no ledger write; on success it stores the points under a fresh identifier
(passed explicitly, modelling `uuid.New().String()`) and responds 201
with that identifier. -/
def scanReceiptHandler (r : Receipt) (freshId : String) (ledger : Ledger) :
    ScanResponse × Ledger :=
  match scanReceiptPoints r with
  | .error e => (.badRequest (errorMessage e), ledger)
  | .ok pts => (.created freshId, ledgerInsert ledger freshId pts)

/-- Response of the points-lookup handler: `200 {"points": ...}` or
`404 {"message": ...}`. -/
inductive PointsResponse where
  | ok (points : Int)
  | notFound (message : String)
deriving DecidableEq, Repr

/-- The `getPoints` handler (`main.go:142-157`): read the map with the
comma-ok form and respond 200 with the points or 404 with the not-found
message.  It is a pure function of the ledger: the read mutates nothing. -/
def getPoints (ledger : Ledger) (inputId : String) : PointsResponse :=
  match ledgerLookup ledger inputId with
  | some pts => .ok pts
  | none => .notFound "Points not found for that id."

/-- The end-to-end example receipt of the spec (§8). -/
def targetReceipt : Receipt :=
  { retailer := "Target"
    date := "2022-01-01"
    time := "13:01"
    items := [
      ⟨"Mountain Dew 12PK", "6.49"⟩,
      ⟨"Emils Cheese Pizza", "12.25"⟩,
      ⟨"Knorr Creamy Chicken", "1.26"⟩,
      ⟨"Doritos Nacho Cheese", "3.35"⟩,
      ⟨"   Klarbrunn 12-PK 12 FL OZ  ", "12.00"⟩],
    total := "35.35" }

/-- A receipt with a round-dollar, quarter-multiple total and nothing else
that scores: empty retailer, even day, morning time, no items. -/
def roundTotalReceipt : Receipt :=
  { retailer := "", date := "2022-01-02", time := "13:00", items := [],
    total := "100.00" }

/-- The same receipt with total `"10.10"`, which is neither a round dollar
amount nor a multiple of 0.25. -/
def dimeTotalReceipt : Receipt :=
  { retailer := "", date := "2022-01-02", time := "13:00", items := [],
    total := "10.10" }

/-- A receipt whose total parses to `-5` and whose single qualifying item
has price `-500.00`. -/
def negativeReceipt : Receipt :=
  { retailer := "", date := "2022-01-02", time := "13:00",
    items := [⟨"abc", "-500.00"⟩], total := "-5.00" }

/-- A receipt whose total does not parse as a decimal number. -/
def badTotalReceipt : Receipt :=
  { retailer := "", date := "2022-01-01", time := "13:01", items := [],
    total := "not-a-number" }

/-- A receipt with three items, none of whose descriptions qualify for the
description-length bonus (and whose prices do not even parse). -/
def threeItemReceipt : Receipt :=
  { retailer := "AB", date := "2022-01-02", time := "13:00",
    items := [⟨"ab", "x"⟩, ⟨"ab", "x"⟩, ⟨"ab", "x"⟩], total := "1.00" }

/-- Hour and minute bounds guaranteed by a successful `"15:04"` parse. -/
theorem parseTime_bounds (s : String) (t : TimeHM) (h : parseTime s = some t) :
    t.hour < 24 ∧ t.minute < 60 := by
  unfold parseTime at h
  split at h <;>
    [skip; skip; exact absurd h (by simp)] <;>
  · split at h
    · dsimp only at h
      split at h
      · rename_i hb
        cases h
        simpa using hb
      · exact absurd h (by simp)
    · exact absurd h (by simp)

/-- Shape of a successful score: the sum of the seven rule contributions,
given the results of the four parsing stages. -/
theorem scanReceiptPoints_decomp (r : Receipt) (q : ℚ) (d : DateYMD)
    (t : TimeHM) (pts : Int)
    (hq : parseDecimal r.total = some q) (hd : parseDate r.date = some d)
    (ht : parseTime r.time = some t) (hi : itemPoints r.items = Except.ok pts) :
    scanReceiptPoints r = .ok (retailerPoints r.retailer
      + (if roundDollar q then 50 else 0)
      + (if quarterMultiple q then 25 else 0)
      + pairPoints r.items.length
      + pts
      + (if oddDay d then 6 else 0)
      + (if afternoonQualifies t then 10 else 0)) := by
  unfold scanReceiptPoints
  rw [hq, hd, ht, hi]

/-- If every description in the list fails the multiple-of-3 test, the item
loop parses no price and contributes zero points. -/
theorem itemPoints_all_nonqualifying (l : List Item)
    (h : ∀ i ∈ l, descQualifies i.description = false) :
    itemPoints l = .ok 0 := by
  induction l with
  | nil => rfl
  | cons a rest ih =>
    have ha := h a (List.mem_cons_self a rest)
    simp only [itemPoints, ha, Bool.false_eq_true, if_false]
    exact ih (fun i hi => h i (List.mem_cons_of_mem a hi))

/-- A non-qualifying item is invisible to the item loop: it may be removed
without changing the outcome (its price string is never inspected). -/
theorem itemPoints_skip_nonqualifying (l1 : List Item) (i : Item)
    (l2 : List Item) (hi : descQualifies i.description = false) :
    itemPoints (l1 ++ i :: l2) = itemPoints (l1 ++ l2) := by
  induction l1 with
  | nil => simp only [List.nil_append, itemPoints, hi, Bool.false_eq_true, if_false]
  | cons a t ih =>
    simp only [List.cons_append, itemPoints, List.append_eq]
    rw [ih]

/-- If every field needed before the item loop is malformed — or a
qualifying item's price is — the scorer returns some validation error. -/
theorem scanReceiptPoints_error_of_bad (r : Receipt)
    (h : parseDecimal r.total = none ∨ parseDate r.date = none ∨
      parseTime r.time = none ∨ ∃ e, itemPoints r.items = Except.error e) :
    ∃ e, scanReceiptPoints r = Except.error e := by
  unfold scanReceiptPoints
  cases hq : parseDecimal r.total with
  | none => exact ⟨.invalidTotal, rfl⟩
  | some q =>
    cases hd : parseDate r.date with
    | none => exact ⟨.invalidDate, rfl⟩
    | some d =>
      cases ht : parseTime r.time with
      | none => exact ⟨.invalidTime, rfl⟩
      | some t =>
        cases hi : itemPoints r.items with
        | error e => exact ⟨e, rfl⟩
        | ok pts => rcases h with h | h | h | ⟨e, h⟩ <;> simp_all

/-- The first qualifying item with an unparseable price aborts the item
loop with `invalidItemPrice` carrying that item's description, provided
the items before it all went through. -/
theorem itemPoints_first_bad_price (l1 : List Item) (i : Item)
    (l2 : List Item) (n : Int) (h1 : itemPoints l1 = Except.ok n)
    (hq : descQualifies i.description = true)
    (hp : parseDecimal i.price = none) :
    itemPoints (l1 ++ i :: l2) = .error (.invalidItemPrice i.description) := by
  induction l1 generalizing n with
  | nil => simp only [List.nil_append, itemPoints, hq, if_true, hp]
  | cons a t ih =>
    simp only [itemPoints, List.append_eq] at h1
    simp only [List.cons_append, itemPoints, List.append_eq]
    cases hqa : descQualifies a.description with
    | false =>
      rw [hqa] at h1
      simp only [Bool.false_eq_true, if_false] at h1 ⊢
      exact ih n h1
    | true =>
      rw [hqa] at h1
      simp only [if_true] at h1 ⊢
      cases hpa : parseDecimal a.price with
      | none => rw [hpa] at h1; exact absurd h1 (by simp)
      | some p =>
        rw [hpa] at h1
        cases hit : itemPoints t with
        | error e => rw [hit] at h1; exact absurd h1 (by simp)
        | ok m => rw [ih m hit]

/-- Claim C1: the spec's end-to-end receipt — retailer "Target", purchase
date 2022-01-01, purchase time 13:01, the five listed items and total
"35.35" — passes every validation step and scores exactly 28 points
(6 retailer characters + 10 item-pair points + 3 + 3 description bonuses
+ 6 odd-day points). -/
theorem claim1_target_receipt_28 :
    scanReceiptPoints targetReceipt = .ok 28 := by decide

/-- Claim C2: for every purchase-time string the parser accepts, the
afternoon-bonus condition of the scorer holds exactly when the time is
strictly after 14:00 and strictly before 16:00; in particular 14:00 and
16:00 never qualify while 14:01 and 15:59 do. -/
theorem claim2_afternoon_bonus_iff :
    (∀ (s : String) (t : TimeHM), parseTime s = some t →
      (afternoonQualifies t = true ↔
        (14 * 60 < 60 * t.hour + t.minute ∧ 60 * t.hour + t.minute < 16 * 60))) ∧
    afternoonQualifies ⟨14, 0⟩ = false ∧ afternoonQualifies ⟨14, 1⟩ = true ∧
    afternoonQualifies ⟨15, 59⟩ = true ∧ afternoonQualifies ⟨16, 0⟩ = false := by
  refine ⟨fun s t h => ?_, by decide, by decide, by decide, by decide⟩
  obtain ⟨hh, hm⟩ := parseTime_bounds s t h
  simp only [afternoonQualifies, Bool.or_eq_true, Bool.and_eq_true,
    decide_eq_true_eq, beq_iff_eq]
  omega

/-- Witness for C2: the characterization applied to the parse of "14:01". -/
theorem claim2_witness : afternoonQualifies ⟨14, 1⟩ = true :=
  (claim2_afternoon_bonus_iff.1 "14:01" ⟨14, 1⟩ (by decide)).mpr (by decide)

/-- Counterexample to C3 as stated: the description "éa" trims to
character length 2 (not divisible by 3), yet its UTF-8 byte length is 3,
so the code parses the price and awards `ceil(10.00 * 0.2) = 2` points —
the bonus is governed by byte length, not character length. -/
theorem claim3_counterexample :
    descQualifies "éa" = true ∧ (goTrim "éa".data).length % 3 = 2 ∧
    itemPoints [⟨"éa", "10.00"⟩] = .ok 2 := by decide

/-- Claim C3 (amended: byte length in place of character length): the item
loop returns exactly the sum of `ceil(price * 0.2)` over the items whose
trimmed description has UTF-8 byte length divisible by 3, whenever every
such qualifying price parses; an all-whitespace description trims to
length 0 and qualifies. -/
theorem claim3_desc_bonus_characterization :
    (∀ (l : List Item) (f : Item → ℚ),
      (∀ i ∈ l, descQualifies i.description = true →
        parseDecimal i.price = some (f i)) →
      itemPoints l = .ok (((l.filter fun i => descQualifies i.description).map
        fun i => ratCeil (ratMul (f i) (mkRat 1 5))).sum)) ∧
    descQualifies "   " = true ∧ trimmedDescLength "   " = 0 := by
  refine ⟨fun l f => ?_, by decide, by decide⟩
  induction l with
  | nil => intro _; rfl
  | cons a t ih =>
    intro h
    have hrest := ih (fun i hi hq => h i (List.mem_cons_of_mem a hi) hq)
    simp only [itemPoints, List.filter_cons]
    cases hqa : descQualifies a.description with
    | false =>
      simp only [Bool.false_eq_true, if_false, hrest]
    | true =>
      have hpa := h a (List.mem_cons_self a t) hqa
      simp only [if_true, hpa, hrest, List.map_cons, List.sum_cons]

/-- Witness for C3: the amended characterization evaluated on a concrete
list with one qualifying and one non-qualifying item (whose bad price is
never parsed). -/
theorem claim3_witness :
    itemPoints [⟨"abc", "10.00"⟩, ⟨"zz", "bad"⟩] =
      .ok ((([⟨"abc", "10.00"⟩, ⟨"zz", "bad"⟩] : List Item).filter
        (fun i => descQualifies i.description)).map
        (fun i => ratCeil (ratMul (mkRat 10 1) (mkRat 1 5)))).sum :=
  claim3_desc_bonus_characterization.1 _ (fun _ => mkRat 10 1) (by decide)

/-- Claim C4: a receipt with any malformed field (total, date, time, or a
qualifying item's price) makes the submit handler answer with a bad-request
message, issue no identifier, and leave the ledger exactly as it was. -/
theorem claim4_malformed_aborts (r : Receipt) (freshId : String) (L : Ledger)
    (h : parseDecimal r.total = none ∨ parseDate r.date = none ∨
      parseTime r.time = none ∨ ∃ e, itemPoints r.items = Except.error e) :
    ∃ e, scanReceiptHandler r freshId L =
      (ScanResponse.badRequest (errorMessage e), L) := by
  obtain ⟨e, he⟩ := scanReceiptPoints_error_of_bad r h
  refine ⟨e, ?_⟩
  unfold scanReceiptHandler
  rw [he]

/-- Witness for C4: a receipt with unparseable total aborts against a
non-empty ledger, leaving it unchanged. -/
theorem claim4_witness :
    ∃ e, scanReceiptHandler badTotalReceipt "some-id" [("old", 3)] =
      (ScanResponse.badRequest (errorMessage e), [("old", 3)]) :=
  claim4_malformed_aborts badTotalReceipt "some-id" [("old", 3)]
    (Or.inl (by decide))

/-- Claim C5: validation runs total, then date, then time, each step
short-circuiting with its own error kind; item prices are checked lazily —
a non-qualifying item is skipped without parsing its price, and the first
qualifying item whose price fails to parse produces `invalidItemPrice`
carrying that item's description. -/
theorem claim5_validation_order_lazy :
    (∀ r : Receipt,
      (parseDecimal r.total = none →
        scanReceiptPoints r = .error .invalidTotal) ∧
      (∀ q, parseDecimal r.total = some q → parseDate r.date = none →
        scanReceiptPoints r = .error .invalidDate) ∧
      (∀ q d, parseDecimal r.total = some q → parseDate r.date = some d →
        parseTime r.time = none → scanReceiptPoints r = .error .invalidTime)) ∧
    (∀ (l1 : List Item) (i : Item) (l2 : List Item),
      descQualifies i.description = false →
      itemPoints (l1 ++ i :: l2) = itemPoints (l1 ++ l2)) ∧
    (∀ (l1 : List Item) (i : Item) (l2 : List Item) (n : Int),
      itemPoints l1 = Except.ok n → descQualifies i.description = true →
      parseDecimal i.price = none →
      itemPoints (l1 ++ i :: l2) = .error (.invalidItemPrice i.description)) := by
  refine ⟨fun r => ⟨?_, ?_, ?_⟩,
    itemPoints_skip_nonqualifying, itemPoints_first_bad_price⟩
  · intro h
    unfold scanReceiptPoints
    rw [h]
  · intro q hq hd
    unfold scanReceiptPoints
    rw [hq, hd]
  · intro q d hq hd ht
    unfold scanReceiptPoints
    rw [hq, hd, ht]

/-- Witness for C5: the three item-level behaviours at concrete inputs —
an unparseable total, a skipped non-qualifying item with a bad price, and
a failing qualifying price. -/
theorem claim5_witness :
    scanReceiptPoints badTotalReceipt = .error .invalidTotal ∧
    itemPoints [⟨"ab", "oops"⟩, ⟨"abc", "2.00"⟩] =
      itemPoints [⟨"abc", "2.00"⟩] ∧
    itemPoints [⟨"abc", "nope"⟩] = .error (.invalidItemPrice "abc") :=
  ⟨(claim5_validation_order_lazy.1 badTotalReceipt).1 (by decide),
   claim5_validation_order_lazy.2.1 [] ⟨"ab", "oops"⟩ [⟨"abc", "2.00"⟩]
     (by decide),
   claim5_validation_order_lazy.2.2 [] ⟨"abc", "nope"⟩ [] 0 (by decide)
     (by decide) (by decide)⟩

/-- Claim C6: total "100.00" passes both the round-dollar test and the
quarter-multiple test (+75 in total), while "10.10" passes neither; on
otherwise score-free receipts the two totals yield 75 and 0 points. -/
theorem claim6_total_bonuses :
    parseDecimal "100.00" = some (mkRat 100 1) ∧
    roundDollar (mkRat 100 1) = true ∧ quarterMultiple (mkRat 100 1) = true ∧
    parseDecimal "10.10" = some (mkRat 101 10) ∧
    roundDollar (mkRat 101 10) = false ∧
    quarterMultiple (mkRat 101 10) = false ∧
    scanReceiptPoints roundTotalReceipt = .ok 75 ∧
    scanReceiptPoints dimeTotalReceipt = .ok 0 := by decide

/-- Claim C7: the item-pair rule contributes exactly
`5 * floor(count / 2)`: on any parseable receipt whose items earn no
description bonus, the score is the empty-items score plus `pairPoints`;
and `pairPoints` maps 0,1,2,3,4 to 0,0,5,5,10. -/
theorem claim7_pair_bonus :
    (∀ (r : Receipt) (q : ℚ) (d : DateYMD) (t : TimeHM),
      parseDecimal r.total = some q → parseDate r.date = some d →
      parseTime r.time = some t →
      (∀ i ∈ r.items, descQualifies i.description = false) →
      ∃ base : Int, scanReceiptPoints { r with items := [] } = .ok base ∧
        scanReceiptPoints r = .ok (base + pairPoints r.items.length)) ∧
    pairPoints 0 = 0 ∧ pairPoints 1 = 0 ∧ pairPoints 2 = 5 ∧
    pairPoints 3 = 5 ∧ pairPoints 4 = 10 := by
  refine ⟨fun r q d t hq hd ht hnon => ?_, rfl, rfl, rfl, rfl, rfl⟩
  have hi0 : itemPoints r.items = .ok 0 := itemPoints_all_nonqualifying _ hnon
  have h1 := scanReceiptPoints_decomp r q d t 0 hq hd ht hi0
  have h2 := scanReceiptPoints_decomp { r with items := [] } q d t 0 hq hd ht rfl
  refine ⟨_, h2, ?_⟩
  rw [h1]
  have hp0 : pairPoints (List.length ([] : List Item)) = 0 := rfl
  simp only [Except.ok.injEq, hp0]
  ring

/-- Witness for C7: a parseable receipt with three non-qualifying items
earns its empty-items base plus one +5 pair bonus. -/
theorem claim7_witness :
    ∃ base : Int,
      scanReceiptPoints { threeItemReceipt with items := [] } = .ok base ∧
      scanReceiptPoints threeItemReceipt =
        .ok (base + pairPoints threeItemReceipt.items.length) :=
  claim7_pair_bonus.1 threeItemReceipt (mkRat 1 1) ⟨2022, 1, 2⟩ ⟨13, 0⟩
    (by decide) (by decide) (by decide) (by decide)

/-- Claim C8: the points lookup returns the stored score exactly when the
identifier is in the ledger, and otherwise the not-found response carrying
"Points not found for that id."; it is a pure read — the embedding returns
only a response, never a modified ledger — and total, so it cannot crash. -/
theorem claim8_lookup_total (L : Ledger) (key : String) :
    (∀ p, ledgerLookup L key = some p → getPoints L key = .ok p) ∧
    (ledgerLookup L key = none →
      getPoints L key = .notFound "Points not found for that id.") := by
  constructor
  · intro p hp
    unfold getPoints
    rw [hp]
  · intro hn
    unfold getPoints
    rw [hn]

/-- Witness for C8: a present and an absent identifier on a one-entry
ledger. -/
theorem claim8_witness :
    getPoints [("a", 5)] "a" = .ok 5 ∧
    getPoints [("a", 5)] "b" = .notFound "Points not found for that id." :=
  ⟨(claim8_lookup_total [("a", 5)] "a").1 5 (by decide),
   (claim8_lookup_total [("a", 5)] "b").2 (by decide)⟩

/-- Claim C10: no non-negativity check exists: total "-5.00" parses, still
earns both the +50 and +25 bonuses, a qualifying item's negative price
contributes `ceil(-500 * 0.2) = -100` points, the receipt scores -25, and
the handler records that negative total in the ledger. -/
theorem claim10_negative_amounts :
    parseDecimal "-5.00" = some (mkRat (-5) 1) ∧
    roundDollar (mkRat (-5) 1) = true ∧
    quarterMultiple (mkRat (-5) 1) = true ∧
    parseDecimal "-500.00" = some (mkRat (-500) 1) ∧
    itemPoints [⟨"abc", "-500.00"⟩] = .ok (-100) ∧
    scanReceiptPoints negativeReceipt = .ok (-25) ∧
    scanReceiptHandler negativeReceipt "fresh-id" [] =
      (.created "fresh-id", [("fresh-id", -25)]) ∧
    (-25 : Int) < 0 := by decide
